import Mathlib

set_option maxRecDepth 40000

/-
Verification of the provider-adapter and code-block-extraction pipeline of the
genaicursor repository (src/src/store/useAIStore.ts and
src/src/components/CodePreview.tsx), as a shallow embedding in Lean.

Text is modelled as `List Char`.  Clock-derived fields of the source (the
`id` and `timestamp` fields produced from `Date.now()`) are not represented,
since they carry no information the specification speaks about; network
responses are supplied by an explicit environment value.
-/

/-- Backtick character (code point 96), the fence delimiter character of
the regex in `extractCodeBlocks`. -/
def btick : Char := Char.ofNat 96

/-- Three backticks: the opening/closing fence delimiter. -/
def btick3 : List Char := [btick, btick, btick]

/-- JS regex word character class `\w` = [A-Za-z0-9_]. -/
def isWordChar (c : Char) : Bool := c.isAlphanum || c = '_'

/-- JS whitespace as removed by `String.prototype.trim` (ASCII part). -/
def isSpaceChar (c : Char) : Bool :=
  c = ' ' || c = '\t' || c = '\n' || c = '\r' || c = Char.ofNat 11 || c = Char.ofNat 12

/-- Drop trailing whitespace, mirroring the right half of `trim()`. -/
def dropTrail (cs : List Char) : List Char :=
  (cs.reverse.dropWhile isSpaceChar).reverse

/-- JS `String.prototype.trim` on a character list. -/
def trimChars (cs : List Char) : List Char :=
  dropTrail (cs.dropWhile isSpaceChar)

/-- CodeBlock of useAIStore.ts: language tag and code text.  The `id` field
(`Date.now().toString() + Math.random()`) is clock-derived and omitted. -/
structure CodeBlock where
  language : List Char
  code : List Char
deriving DecidableEq

/-- Language of a block: `match[1] || 'text'`. -/
def langName : Option (List Char) → List Char
  | none => "text".toList
  | some w => w

/-- Characters of the optional language capture group. -/
def optLang : Option (List Char) → List Char
  | none => []
  | some w => w

/-- If the list starts with three backticks, return the remainder. -/
def tripleHead : List Char → Option (List Char)
  | a :: b :: c :: r => if a = btick ∧ b = btick ∧ c = btick then some r else none
  | _ => none

/-- Maximal leading run of word characters, with the remainder: the greedy
`(\w+)?` capture of the fence regex. -/
def takeWordRun : List Char → List Char × List Char
  | [] => ([], [])
  | c :: rest =>
    if isWordChar c then
      let p := takeWordRun rest
      (c :: p.1, p.2)
    else ([], c :: rest)

/-- Earliest closing fence: splits the input at the first occurrence of three
backticks (the lazy `[\s\S]*?` of the regex), returning the body before it
and the remainder after it. -/
def findClose : List Char → Option (List Char × List Char)
  | [] => none
  | c :: rest =>
    match tripleHead (c :: rest) with
    | some r => some ([], r)
    | none =>
      match findClose rest with
      | none => none
      | some p => some (c :: p.1, p.2)

/-- Attempt of the fence regex ```` ```(\w+)?\n([\s\S]*?)``` ```` at the head
of the input.  Returns the optional language token, the body, and the text
after the closing delimiter.  (Backtracking of the greedy `(\w+)?` before the
literal `\n` is equivalent to requiring the newline right after the maximal
word run, since every shorter split is followed by a word character.) -/
def matchFence (cs : List Char) : Option (Option (List Char) × List Char × List Char) :=
  match tripleHead cs with
  | none => none
  | some afterOpen =>
    let w := (takeWordRun afterOpen).1
    let rest1 := (takeWordRun afterOpen).2
    match rest1 with
    | [] => none
    | nl :: rest2 =>
      if nl = '\n' then
        match findClose rest2 with
        | none => none
        | some bp => some (if w = [] then none else some w, bp.1, bp.2)
      else none

/-- Segment of assistant text: a plain-text run or a well-formed fenced
region (optional language token plus raw body). -/
inductive Segment where
  | plain (text : List Char)
  | fenced (lang : Option (List Char)) (body : List Char)
deriving DecidableEq

/-- Original characters of a segment (a fenced segment renders back to its
matched span including delimiters and language token). -/
def renderSegment : Segment → List Char
  | .plain t => t
  | .fenced l body => btick3 ++ optLang l ++ '\n' :: (body ++ btick3)

/-- Concatenation of the rendered segments. -/
def joinSegments (segs : List Segment) : List Char :=
  (segs.map renderSegment).flatten

/-- Prepend one plain character, merging into a leading plain run. -/
def consPlain (c : Char) : List Segment → List Segment
  | Segment.plain t :: rest => Segment.plain (c :: t) :: rest
  | segs => Segment.plain [c] :: segs

/-- Fuel-indexed scan of the input for fenced regions, in the manner of the
`exec` loop of `extractCodeBlocks`: try a match at each position, emit a
fenced segment and continue after it on success, otherwise shift one plain
character.  Fuel at least the input length is always sufficient. -/
def scanGo : Nat → List Char → List Segment
  | 0, _ => []
  | Nat.succ n, cs =>
    match cs with
    | [] => []
    | c :: rest =>
      match matchFence (c :: rest) with
      | some (l, body, after) => Segment.fenced l body :: scanGo n after
      | none => consPlain c (scanGo n rest)

/-- Segment decomposition of assistant text. -/
def scanSegments (cs : List Char) : List Segment := scanGo cs.length cs

/-- Fuel-indexed translation of the `while ((match = codeBlockRegex.exec(content)))`
loop of `extractCodeBlocks`: collect one CodeBlock per match. -/
def extractGo : Nat → List Char → List CodeBlock
  | 0, _ => []
  | Nat.succ n, cs =>
    match cs with
    | [] => []
    | c :: rest =>
      match matchFence (c :: rest) with
      | some (l, body, after) =>
        { language := langName l, code := trimChars body } :: extractGo n after
      | none => extractGo n rest

/-- extractCodeBlocks of useAIStore.ts on a character list. -/
def extractCodeBlocks (cs : List Char) : List CodeBlock := extractGo cs.length cs

/-- CodeBlock obtained from a fenced segment (none for a plain run). -/
def segmentBlock : Segment → Option CodeBlock
  | .plain _ => none
  | .fenced l body => some { language := langName l, code := trimChars body }

/-- Whether the list contains three consecutive backticks anywhere. -/
def hasTriple : List Char → Bool
  | [] => false
  | c :: rest => (tripleHead (c :: rest)).isSome || hasTriple rest

/-- Containment of a needle at the head of a list (helper for JS
`String.prototype.includes`). -/
def leadsWith : List Char → List Char → Bool
  | [], _ => true
  | _ :: _, [] => false
  | a :: as, b :: bs => a = b && leadsWith as bs

/-- JS `String.prototype.includes` on character lists. -/
def hasSubstr (needle : List Char) : List Char → Bool
  | [] => leadsWith needle []
  | c :: rest => leadsWith needle (c :: rest) || hasSubstr needle rest

/-- JS `String.prototype.split(' ')` (consecutive separators give empty
words, as in JS). -/
def splitSpacesGo (acc : List Char) : List Char → List (List Char)
  | [] => [acc.reverse]
  | c :: rest =>
    if c = ' ' then acc.reverse :: splitSpacesGo [] rest
    else splitSpacesGo (c :: acc) rest

/-- Message role. -/
inductive Role where
  | user
  | assistant
deriving DecidableEq

/-- Message of useAIStore.ts.  The clock-derived `id` and `timestamp` are
omitted; `codeBlocks` is the optional field attached to assistant
messages. -/
structure Message where
  content : String
  role : Role
  codeBlocks : Option (List CodeBlock) := none
deriving DecidableEq

/-- extractCodeBlocks applied to a String content. -/
def extractCodeBlocksStr (s : String) : List CodeBlock := extractCodeBlocks s.toList

/-- LLMProvider of useAIStore.ts. -/
inductive LLMProvider where
  | openai
  | gemini
  | claude
  | custom
deriving DecidableEq

/-- LLMConfig of useAIStore.ts. -/
structure LLMConfig where
  provider : LLMProvider
  apiKey : String
  model : String
  baseURL : Option String := none
  headers : List (String × String) := []
deriving DecidableEq

/-- JS truthiness of `config.baseURL` (absent or empty string is falsy). -/
def baseURLSet (c : LLMConfig) : Bool :=
  match c.baseURL with
  | none => false
  | some u => !(u == "")

/-- OpenAI client handle, recording the constructor arguments
(`dangerouslyAllowBrowser` is a constant and not recorded). -/
structure OpenAIClient where
  apiKey : String
  baseURL : Option String := none
deriving DecidableEq

/-- GoogleGenerativeAI client handle. -/
structure GeminiClient where
  apiKey : String
deriving DecidableEq

/-- Status of a cursor command. -/
inductive CommandStatus where
  | pending
  | executing
  | completed
  | error
deriving DecidableEq

/-- CursorCommand of useAIStore.ts (clock-derived `id`/`timestamp`
omitted). -/
structure CursorCommand where
  command : String
  description : String
  status : CommandStatus
  output : Option String := none
deriving DecidableEq

/-- CursorSession of useAIStore.ts; `id` comes from `Date.now()`, modelled
by the clock value of the environment. -/
structure CursorSession where
  id : Nat
  projectName : String
  description : String
  commands : List CursorCommand
  isActive : Bool
deriving DecidableEq

/-- ChatMode of useAIStore.ts. -/
inductive ChatMode where
  | regular
  | cursor
deriving DecidableEq

/-- State of the zustand store in useAIStore.ts. -/
structure AIState where
  llmConfig : LLMConfig
  messages : List Message
  isTyping : Bool
  isPreviewOpen : Bool
  previewContent : String
  openaiClient : Option OpenAIClient
  geminiClient : Option GeminiClient
  cursorSessions : List CursorSession
  activeCursorSession : Option Nat
  isGeneratingCommands : Bool
  chatMode : ChatMode
deriving DecidableEq

/-- Environment of one `sendMessage` call: the clock reading (`Date.now()`)
and the outcomes of the (at most one) outbound network interaction.
`chatOutcome` is the result of the provider chat call (assistant text on
success, the thrown `Error`'s message on failure); `cmdOutcome` is the
result of the command-generation call including the JSON decoding of the
response by the external `JSON.parse` builtin (`parseCommandsFromResponse`
itself never throws, so an error here models only a client/network/HTTP
failure). -/
structure Env where
  now : Nat
  chatOutcome : Except String String
  cmdOutcome : Except String (List CursorCommand)

/-- addMessage of useAIStore.ts: appends, never mutates or reorders. -/
def addMessage (m : Message) (s : AIState) : AIState :=
  { s with messages := s.messages ++ [m] }

/-- setIsTyping of useAIStore.ts. -/
def setIsTyping (b : Bool) (s : AIState) : AIState := { s with isTyping := b }

/-- clearMessages of useAIStore.ts. -/
def clearMessages (s : AIState) : AIState := { s with messages := [] }

/-- setPreviewContent of useAIStore.ts. -/
def setPreviewContent (c : String) (s : AIState) : AIState := { s with previewContent := c }

/-- Partial<LLMConfig> argument of setLLMConfig: present fields override. -/
structure ConfigPatch where
  provider : Option LLMProvider := none
  apiKey : Option String := none
  model : Option String := none
  baseURL : Option String := none
  headers : Option (List (String × String)) := none
deriving DecidableEq

/-- Spread merge `{ ...currentConfig, ...config }` of setLLMConfig. -/
def mergeConfig (cur : LLMConfig) (p : ConfigPatch) : LLMConfig :=
  { provider := p.provider.getD cur.provider
    apiKey := p.apiKey.getD cur.apiKey
    model := p.model.getD cur.model
    baseURL := match p.baseURL with | some u => some u | none => cur.baseURL
    headers := p.headers.getD cur.headers }

/-- setLLMConfig of useAIStore.ts: merges the patch and re-instantiates at
most one provider client (the `else if` branch of the source is reachable
exactly when the provider is not `openai`, which `provider = gemini`
already implies). -/
def setLLMConfig (p : ConfigPatch) (s : AIState) : AIState :=
  let newConfig := mergeConfig s.llmConfig p
  { s with
    llmConfig := newConfig
    openaiClient :=
      if newConfig.provider = LLMProvider.openai ∧ ¬ newConfig.apiKey = "" then
        some { apiKey := newConfig.apiKey
               baseURL := if baseURLSet newConfig then newConfig.baseURL else none }
      else none
    geminiClient :=
      if newConfig.provider = LLMProvider.gemini ∧ ¬ newConfig.apiKey = "" then
        some { apiKey := newConfig.apiKey }
      else none }

/-- extractProjectName of useAIStore.ts. -/
def extractProjectName (prompt : String) : String :=
  let words := splitSpacesGo [] (prompt.toList.map Char.toLower)
  let projectTypes : List String :=
    ["calculator", "todo", "portfolio", "landing", "dashboard", "blog", "website", "app"]
  match projectTypes.find? (fun t => words.any (fun w => hasSubstr t.toList w)) with
  | some t => t
  | none => "web-project"

/-- createCursorSession of useAIStore.ts (session id from the clock). -/
def createCursorSession (env : Env) (projectName description : String) (s : AIState) : AIState :=
  let newSession : CursorSession :=
    { id := env.now, projectName := projectName, description := description
      commands := [], isActive := true }
  { s with
    cursorSessions := s.cursorSessions ++ [newSession]
    activeCursorSession := some newSession.id }

/-- sendToOpenAI of useAIStore.ts: fails before any network call when the
client was never constructed, otherwise performs the one network call. -/
def sendToOpenAI (client : Option OpenAIClient) (messages : List Message)
    (config : LLMConfig) (env : Env) : Except String String × List LLMProvider :=
  match client with
  | none => (Except.error "OpenAI client not initialized", [])
  | some _ => (env.chatOutcome, [LLMProvider.openai])

/-- sendToGemini of useAIStore.ts.  With an empty conversation the source
dereferences `messages[messages.length - 1].content` on `undefined` and
throws before the network send; `sendMessage` always passes a non-empty
list. -/
def sendToGemini (client : Option GeminiClient) (messages : List Message)
    (config : LLMConfig) (env : Env) : Except String String × List LLMProvider :=
  match client with
  | none => (Except.error "Gemini client not initialized", [])
  | some _ =>
    match messages.getLast? with
    | none => (Except.error "Cannot read properties of undefined (reading 'content')", [])
    | some _ => (env.chatOutcome, [LLMProvider.gemini])

/-- sendToClaude of useAIStore.ts: always issues the fetch. -/
def sendToClaude (messages : List Message) (config : LLMConfig) (env : Env) :
    Except String String × List LLMProvider :=
  (env.chatOutcome, [LLMProvider.claude])

/-- sendToCustomAPI of useAIStore.ts: throws before the fetch when no base
URL is configured. -/
def sendToCustomAPI (messages : List Message) (config : LLMConfig) (env : Env) :
    Except String String × List LLMProvider :=
  if baseURLSet config then (env.chatOutcome, [LLMProvider.custom])
  else (Except.error "Base URL required for custom API", [])

/-- Provider switch of the regular-chat branch of sendMessage. -/
def chatDispatch (env : Env) (messages : List Message) (config : LLMConfig)
    (openaiClient : Option OpenAIClient) (geminiClient : Option GeminiClient) :
    Except String String × List LLMProvider :=
  match config.provider with
  | LLMProvider.openai => sendToOpenAI openaiClient messages config env
  | LLMProvider.gemini => sendToGemini geminiClient messages config env
  | LLMProvider.claude => sendToClaude messages config env
  | LLMProvider.custom => sendToCustomAPI messages config env

/-- Provider switch of generateCommands (generateCommandsOpenAI /
Gemini / Claude / Custom of useAIStore.ts). -/
def commandDispatch (env : Env) (description : String) (config : LLMConfig)
    (openaiClient : Option OpenAIClient) (geminiClient : Option GeminiClient) :
    Except String (List CursorCommand) × List LLMProvider :=
  match config.provider with
  | LLMProvider.openai =>
    match openaiClient with
    | none => (Except.error "OpenAI client not initialized", [])
    | some _ => (env.cmdOutcome, [LLMProvider.openai])
  | LLMProvider.gemini =>
    match geminiClient with
    | none => (Except.error "Gemini client not initialized", [])
    | some _ => (env.cmdOutcome, [LLMProvider.gemini])
  | LLMProvider.claude => (env.cmdOutcome, [LLMProvider.claude])
  | LLMProvider.custom =>
    if baseURLSet config then (env.cmdOutcome, [LLMProvider.custom])
    else (Except.error "Base URL required for custom API", [])

/-- generateCommands of useAIStore.ts: guard, pending flag, provider
dispatch, session update on success, rethrow on failure, pending flag
cleared in the `finally`. -/
def generateCommands (env : Env) (description : String) (s : AIState) :
    AIState × Option String × List LLMProvider :=
  if s.llmConfig.apiKey = "" ∨ s.activeCursorSession = none then
    (s, some "API key or active session not set", [])
  else
    let s1 := { s with isGeneratingCommands := true }
    let d := commandDispatch env description s1.llmConfig s1.openaiClient s1.geminiClient
    match d.1 with
    | Except.ok cmds =>
      let s2 := { s1 with
        cursorSessions := s1.cursorSessions.map fun (sess : CursorSession) =>
          if some sess.id = s1.activeCursorSession then { sess with commands := cmds }
          else sess }
      ({ s2 with isGeneratingCommands := false }, none, d.2)
    | Except.error e =>
      ({ s1 with isGeneratingCommands := false }, some e, d.2)

/-- Outcome of one sendMessage call: the resulting store state, the message
of an uncaught (rethrown) exception if any, and the list of network calls
that were attempted. -/
structure SendOutcome where
  state : AIState
  thrown : Option String
  calls : List LLMProvider
deriving DecidableEq

/-- Shorthand for the user message appended by sendMessage. -/
def userMsg (content : String) : Message :=
  { content := content, role := Role.user, codeBlocks := none }

/-- sendMessage of useAIStore.ts: API-key guard (throws to the caller),
cursor-mode branch (create session, generate commands, return), and the
regular branch (append user message, set typing, dispatch, append the
assistant or error message, clear typing in the `finally`). -/
def sendMessage (env : Env) (content : String) (s : AIState) : SendOutcome :=
  if s.llmConfig.apiKey = "" then
    { state := s, thrown := some "API key not set", calls := [] }
  else if s.chatMode = ChatMode.cursor then
    let s1 := createCursorSession env (extractProjectName content) content s
    let r := generateCommands env content s1
    { state := r.1, thrown := r.2.1, calls := r.2.2 }
  else
    let s1 := setIsTyping true (addMessage (userMsg content) s)
    let d := chatDispatch env s1.messages s1.llmConfig s1.openaiClient s1.geminiClient
    match d.1 with
    | Except.ok text =>
      let s2 := addMessage
        { content := text, role := Role.assistant,
          codeBlocks := some (extractCodeBlocksStr text) } s1
      { state := setIsTyping false s2, thrown := none, calls := d.2 }
    | Except.error e =>
      let s2 := addMessage
        { content := "Error: " ++ e, role := Role.assistant, codeBlocks := none } s1
      { state := setIsTyping false s2, thrown := none, calls := d.2 }

/-- Fixed boilerplate document head of createBlobUrl in CodePreview.tsx
(braces and apostrophes of the CSS written as \x7b, \x7d and \x27). -/
def previewHeader : String :=
  "<!DOCTYPE html>\n<html>\n<head>\n  <meta charset=\"UTF-8\">\n  <meta name=\"viewport\" content=\"width=device-width, initial-scale=1.0\">\n  <title>Code Preview</title>\n  <style>\n    body \x7b\n      font-family: -apple-system, BlinkMacSystemFont, \x27Segoe UI\x27, Roboto, sans-serif;\n      margin: 0;\n      padding: 20px;\n      background: white;\n      color: #333;\n    \x7d\n    * \x7b\n      box-sizing: border-box;\n    \x7d\n  </style>\n</head>\n<body>\n  "

/-- Closing part of the boilerplate of createBlobUrl. -/
def previewFooter : String := "\n</body>\n</html>"

/-- createBlobUrl of CodePreview.tsx, modelled as the document text served
to the preview iframe: content already containing a document marker is
served unchanged, otherwise it is wrapped in the fixed boilerplate. -/
def createBlobDoc (content : List Char) : List Char :=
  if hasSubstr "<!DOCTYPE".toList content || hasSubstr "<html".toList content then content
  else previewHeader.toList ++ content ++ previewFooter.toList

/-- Iterated addMessage calls, in call order. -/
def applyAppends (ms : List Message) (s : AIState) : AIState :=
  ms.foldl (fun st m => addMessage m st) s

/-- Concrete environment: the one network call fails. -/
def envNet : Env :=
  { now := 0, chatOutcome := Except.error "Network failure", cmdOutcome := Except.ok [] }

/-- Concrete configuration used by the witnesses. -/
def baseConfig : LLMConfig :=
  { provider := LLMProvider.claude, apiKey := "k", model := "claude-3" }

/-- Concrete store state used by the witnesses. -/
def baseState : AIState :=
  { llmConfig := baseConfig, messages := [], isTyping := false
    isPreviewOpen := false, previewContent := ""
    openaiClient := none, geminiClient := none
    cursorSessions := [], activeCursorSession := none
    isGeneratingCommands := false, chatMode := ChatMode.regular }

/-- State whose configuration has an empty API key. -/
def noKeyState : AIState :=
  { baseState with llmConfig := { baseConfig with apiKey := "" } }

/-- State configured for the custom provider with no base URL. -/
def customNoURLState : AIState :=
  { baseState with llmConfig := { baseConfig with provider := LLMProvider.custom } }

/-- State in cursor chat mode. -/
def cursorState : AIState := { baseState with chatMode := ChatMode.cursor }

/-- Concrete full-document preview content. -/
def docContent : List Char := "<!DOCTYPE html><html><body>hi</body></html>".toList

/-- The markup bucket of the spec example for the preview composer. -/
def markupBucket : List Char := "<p>hi</p>".toList

/-- The styling bucket of the spec example for the preview composer. -/
def stylingBucket : List Char := "p\x7bcolor:red\x7d".toList

theorem tripleHead_some_decomp {cs r : List Char} (h : tripleHead cs = some r) :
    cs = btick :: btick :: btick :: r := by
  match cs with
  | [] => simp [tripleHead] at h
  | [a] => simp [tripleHead] at h
  | [a, b] => simp [tripleHead] at h
  | a :: b :: c :: t =>
    by_cases hc : a = btick ∧ b = btick ∧ c = btick
    · simp only [tripleHead, if_pos hc, Option.some.injEq] at h
      obtain ⟨h1, h2, h3⟩ := hc
      rw [h1, h2, h3, h]
    · simp [tripleHead, if_neg hc] at h

theorem tripleHead_none_head {a : Char} {xs : List Char} (h : ¬ a = btick) :
    tripleHead (a :: xs) = none := by
  match xs with
  | [] => rfl
  | [b] => rfl
  | b :: c :: t => simp [tripleHead, h]

theorem tripleHead_none_second {a c : Char} {xs : List Char} (h : ¬ c = btick) :
    tripleHead (a :: c :: xs) = none := by
  match xs with
  | [] => rfl
  | d :: t => simp [tripleHead, h]

theorem tripleHead_none_third {a b c : Char} {xs : List Char} (h : ¬ c = btick) :
    tripleHead (a :: b :: c :: xs) = none := by
  simp [tripleHead, h]

theorem takeWordRun_decomp : ∀ cs : List Char,
    cs = (takeWordRun cs).1 ++ (takeWordRun cs).2
  | [] => rfl
  | c :: rest => by
    unfold takeWordRun
    by_cases h : isWordChar c
    · simp only [h, if_pos]
      have := takeWordRun_decomp rest
      simpa using congrArg (c :: ·) this
    · simp [h]

theorem findClose_decomp : ∀ {cs b r : List Char},
    findClose cs = some (b, r) → cs = b ++ (btick3 ++ r) := by
  intro cs
  induction cs with
  | nil => intro b r h; simp [findClose] at h
  | cons c rest ih =>
    intro b r h
    unfold findClose at h
    cases htr : tripleHead (c :: rest) with
    | some r0 =>
      rw [htr] at h
      injection h with h2
      injection h2 with hb hr
      have := tripleHead_some_decomp htr
      rw [← hb, ← hr]
      simpa [btick3] using this
    | none =>
      rw [htr] at h
      cases hfc : findClose rest with
      | none => rw [hfc] at h; simp at h
      | some p =>
        rw [hfc] at h
        injection h with h2
        injection h2 with hb hr
        have := ih (b := p.1) (r := p.2) (by rw [hfc])
        rw [← hb, ← hr]
        simp [this]

theorem matchFence_decomp {cs body after : List Char} {l : Option (List Char)}
    (h : matchFence cs = some (l, body, after)) :
    cs = btick3 ++ (optLang l ++ ('\n' :: (body ++ (btick3 ++ after)))) := by
  unfold matchFence at h
  cases htr : tripleHead cs with
  | none => rw [htr] at h; simp at h
  | some afterOpen =>
    rw [htr] at h
    simp only at h
    cases hw : (takeWordRun afterOpen).2 with
    | nil => rw [hw] at h; simp at h
    | cons nl rest2 =>
      rw [hw] at h
      dsimp only at h
      by_cases hnl : nl = '\n'
      · rw [if_pos hnl] at h
        cases hfc : findClose rest2 with
        | none => rw [hfc] at h; simp at h
        | some bp =>
          rw [hfc] at h
          simp only [Option.some.injEq, Prod.mk.injEq] at h
          obtain ⟨hl, hb, ha⟩ := h
          subst hl hb ha
          have hopen := tripleHead_some_decomp htr
          have hrun := takeWordRun_decomp afterOpen
          have hclose := findClose_decomp (b := bp.1) (r := bp.2) (by rw [hfc])
          have hlang : optLang (if (takeWordRun afterOpen).1 = [] then none
              else some ((takeWordRun afterOpen).1)) = (takeWordRun afterOpen).1 := by
            by_cases hne : (takeWordRun afterOpen).1 = []
            · simp [hne, optLang]
            · simp [hne, optLang]
          rw [hlang, hopen]
          conv_lhs => rw [hrun, hw, hclose, hnl]
          simp [btick3]
      · rw [if_neg hnl] at h; simp at h

theorem matchFence_length {cs body after : List Char} {l : Option (List Char)}
    (h : matchFence cs = some (l, body, after)) :
    after.length + 7 ≤ cs.length := by
  have := matchFence_decomp h
  have hl := congrArg List.length this
  simp [btick3, List.length_append] at hl
  omega

theorem joinSegments_consPlain (c : Char) (segs : List Segment) :
    joinSegments (consPlain c segs) = c :: joinSegments segs := by
  match segs with
  | [] => rfl
  | Segment.plain t :: rest => simp [consPlain, joinSegments, renderSegment]
  | Segment.fenced l b :: rest => simp [consPlain, joinSegments, renderSegment]

theorem scanGo_nil (n : Nat) : scanGo n [] = [] := by
  cases n <;> rfl

theorem joinSegments_scanGo : ∀ (n : Nat) (cs : List Char), cs.length ≤ n →
    joinSegments (scanGo n cs) = cs := by
  intro n
  induction n with
  | zero =>
    intro cs hlen
    have : cs = [] := List.length_eq_zero.mp (Nat.le_zero.mp hlen)
    subst this
    rfl
  | succ n ih =>
    intro cs hlen
    match cs with
    | [] => rfl
    | c :: rest =>
      have hstep : scanGo (n + 1) (c :: rest) =
          match matchFence (c :: rest) with
          | some (l, body, after) => Segment.fenced l body :: scanGo n after
          | none => consPlain c (scanGo n rest) := rfl
      rw [hstep]
      cases hm : matchFence (c :: rest) with
      | some res =>
        obtain ⟨l, body, after⟩ := res
        have hdec := matchFence_decomp hm
        have hlt := matchFence_length hm
        have hafter : after.length ≤ n := by
          simp [List.length_cons] at hlen hlt ⊢
          omega
        simp only [joinSegments, List.map_cons, List.flatten]
        rw [show (List.map renderSegment (scanGo n after)).flatten
              = joinSegments (scanGo n after) from rfl]
        rw [ih after hafter, hdec]
        simp [renderSegment]
      | none =>
        have hrest : rest.length ≤ n := by
          simp [List.length_cons] at hlen; omega
        rw [joinSegments_consPlain, ih rest hrest]

theorem segmentBlock_consPlain (c : Char) (segs : List Segment) :
    (consPlain c segs).filterMap segmentBlock = segs.filterMap segmentBlock := by
  match segs with
  | [] => rfl
  | Segment.plain t :: rest => simp [consPlain, segmentBlock]
  | Segment.fenced l b :: rest => simp [consPlain, segmentBlock]

theorem extractGo_eq_filterMap : ∀ (n : Nat) (cs : List Char),
    extractGo n cs = (scanGo n cs).filterMap segmentBlock := by
  intro n
  induction n with
  | zero => intro cs; rfl
  | succ n ih =>
    intro cs
    match cs with
    | [] => rfl
    | c :: rest =>
      have hstepS : scanGo (n + 1) (c :: rest) =
          match matchFence (c :: rest) with
          | some (l, body, after) => Segment.fenced l body :: scanGo n after
          | none => consPlain c (scanGo n rest) := rfl
      have hstepE : extractGo (n + 1) (c :: rest) =
          match matchFence (c :: rest) with
          | some (l, body, after) =>
            { language := langName l, code := trimChars body } :: extractGo n after
          | none => extractGo n rest := rfl
      rw [hstepS, hstepE]
      cases hm : matchFence (c :: rest) with
      | some res =>
        obtain ⟨l, body, after⟩ := res
        simp [segmentBlock, ih after]
      | none =>
        rw [segmentBlock_consPlain, ih rest]

/-- C1: for every assistant text, the code-block extraction returns exactly
the well-formed fenced regions of the segment decomposition, one CodeBlock
per fenced region in original order (so N regions give N blocks), the
complementary plain-text runs are segments, and concatenating all segments
in order reconstructs the input text exactly. -/
theorem claimC1_extraction_partition (cs : List Char) :
    extractCodeBlocks cs = (scanSegments cs).filterMap segmentBlock ∧
    joinSegments (scanSegments cs) = cs :=
  ⟨extractGo_eq_filterMap cs.length cs,
   joinSegments_scanGo cs.length cs (Nat.le_refl _)⟩

example : extractCodeBlocks ("before ```js\nlet x = 1;\n``` mid ```\nplain\n``` after".toList)
    = [{ language := "js".toList, code := "let x = 1;".toList },
       { language := "text".toList, code := "plain".toList }] := by decide

theorem matchFence_none_of_tripleHead {cs : List Char} (h : tripleHead cs = none) :
    matchFence cs = none := by
  unfold matchFence
  rw [h]

theorem wordChar_ne_btick {c : Char} (h : isWordChar c = true) : ¬ c = btick := by
  intro hc
  rw [hc] at h
  exact absurd h (by decide)

theorem hasTriple_cons_false {c : Char} {rest : List Char}
    (h : hasTriple (c :: rest) = false) :
    tripleHead (c :: rest) = none ∧ hasTriple rest = false := by
  unfold hasTriple at h
  rw [Bool.or_eq_false_iff] at h
  exact ⟨Option.not_isSome_iff_eq_none.mp (by simp [h.1]), h.2⟩

theorem findClose_none_of_noTriple : ∀ {cs : List Char},
    hasTriple cs = false → findClose cs = none := by
  intro cs
  induction cs with
  | nil => intro _; rfl
  | cons c rest ih =>
    intro h
    obtain ⟨h1, h2⟩ := hasTriple_cons_false h
    unfold findClose
    rw [h1, ih h2]

theorem takeWordRun_all : ∀ (lang : List Char) (body : List Char),
    (∀ c ∈ lang, isWordChar c = true) →
    takeWordRun (lang ++ '\n' :: body) = (lang, '\n' :: body) := by
  intro lang
  induction lang with
  | nil =>
    intro body _
    show takeWordRun ('\n' :: body) = ([], '\n' :: body)
    unfold takeWordRun
    rw [if_neg (by decide)]
  | cons c l ih =>
    intro body hw
    show takeWordRun (c :: (l ++ '\n' :: body)) = (c :: l, '\n' :: body)
    unfold takeWordRun
    rw [if_pos (hw c (by simp))]
    rw [ih body (fun x hx => hw x (by simp [hx]))]

theorem matchFence_open_none {lang body : List Char}
    (hlang : ∀ c ∈ lang, isWordChar c = true) (hbody : hasTriple body = false) :
    matchFence (btick :: btick :: btick :: (lang ++ '\n' :: body)) = none := by
  unfold matchFence
  have h1 : tripleHead (btick :: btick :: btick :: (lang ++ '\n' :: body))
      = some (lang ++ '\n' :: body) := by
    simp [tripleHead]
  rw [h1]
  simp only [takeWordRun_all lang body hlang]
  rw [if_pos trivial, findClose_none_of_noTriple hbody]

theorem scanGo_step (n : Nat) (c : Char) (rest : List Char) :
    scanGo (n + 1) (c :: rest) =
      match matchFence (c :: rest) with
      | some (l, body, after) => Segment.fenced l body :: scanGo n after
      | none => consPlain c (scanGo n rest) := rfl

theorem scanGo_noTriple : ∀ (n : Nat) (body : List Char), body.length ≤ n →
    hasTriple body = false →
    scanGo n body = if body = [] then [] else [Segment.plain body] := by
  intro n
  induction n with
  | zero =>
    intro body hlen _
    have : body = [] := List.length_eq_zero.mp (Nat.le_zero.mp hlen)
    subst this
    rfl
  | succ n ih =>
    intro body hlen htr
    match body with
    | [] => rfl
    | c :: rest =>
      obtain ⟨h1, h2⟩ := hasTriple_cons_false htr
      rw [scanGo_step, matchFence_none_of_tripleHead h1]
      have hrest : rest.length ≤ n := by simp [List.length_cons] at hlen; omega
      rw [ih rest hrest h2]
      match rest with
      | [] => rfl
      | d :: rest2 => simp [consPlain]

theorem scanGo_wordNewline : ∀ (lang : List Char) (n : Nat) (body : List Char),
    (lang ++ '\n' :: body).length ≤ n →
    (∀ c ∈ lang, isWordChar c = true) →
    hasTriple body = false →
    scanGo n (lang ++ '\n' :: body) = [Segment.plain (lang ++ '\n' :: body)] := by
  intro lang
  induction lang with
  | nil =>
    intro n body hlen _ htr
    match n with
    | 0 => simp at hlen
    | m + 1 =>
      show scanGo (m + 1) ('\n' :: body) = [Segment.plain ('\n' :: body)]
      rw [scanGo_step,
        matchFence_none_of_tripleHead (tripleHead_none_head (by decide))]
      have hb : body.length ≤ m := by simp [List.length_cons] at hlen; omega
      rw [scanGo_noTriple m body hb htr]
      match body with
      | [] => rfl
      | d :: rest2 => simp [consPlain]
  | cons c l ih =>
    intro n body hlen hw htr
    match n with
    | 0 => simp at hlen
    | m + 1 =>
      show scanGo (m + 1) (c :: (l ++ '\n' :: body)) = [Segment.plain (c :: (l ++ '\n' :: body))]
      rw [scanGo_step,
        matchFence_none_of_tripleHead
          (tripleHead_none_head (wordChar_ne_btick (hw c (by simp))))]
      have hb : (l ++ '\n' :: body).length ≤ m := by
        simp [List.length_cons, List.length_append] at hlen ⊢; omega
      rw [ih m body hb (fun x hx => hw x (by simp [hx])) htr]
      simp [consPlain]

theorem head_append_ne_btick (lang : List Char) (body : List Char)
    (hw : ∀ c ∈ lang, isWordChar c = true) :
    ∀ d xs, lang ++ '\n' :: body = d :: xs → ¬ d = btick := by
  intro d xs hd
  match lang with
  | [] =>
    injection hd with h1 _
    rw [← h1]; decide
  | c :: l =>
    injection hd with h1 _
    rw [← h1]
    exact wordChar_ne_btick (hw c (by simp))

theorem scanGo_openFence : ∀ (n : Nat) (lang body : List Char),
    (btick :: btick :: btick :: (lang ++ '\n' :: body)).length ≤ n →
    (∀ c ∈ lang, isWordChar c = true) →
    hasTriple body = false →
    scanGo n (btick :: btick :: btick :: (lang ++ '\n' :: body)) =
      [Segment.plain (btick :: btick :: btick :: (lang ++ '\n' :: body))] := by
  intro n lang body hlen hw htr
  match n with
  | 0 => simp at hlen
  | 1 => simp [List.length_cons] at hlen
  | 2 => simp [List.length_cons] at hlen
  | m + 3 =>
    rw [scanGo_step, matchFence_open_none hw htr]
    rw [scanGo_step]
    have h2 : tripleHead (btick :: btick :: (lang ++ '\n' :: body)) = none := by
      match hd : lang ++ '\n' :: body with
      | [] => exact absurd hd (by simp)
      | d :: xs => exact tripleHead_none_third (head_append_ne_btick lang body hw d xs hd)
    rw [matchFence_none_of_tripleHead h2]
    rw [scanGo_step]
    have h3 : tripleHead (btick :: (lang ++ '\n' :: body)) = none := by
      match hd : lang ++ '\n' :: body with
      | [] => exact absurd hd (by simp)
      | d :: xs =>
        exact tripleHead_none_second (head_append_ne_btick lang body hw d xs hd)
    rw [matchFence_none_of_tripleHead h3]
    have hb : (lang ++ '\n' :: body).length ≤ m := by
      simp [List.length_cons] at hlen ⊢; omega
    rw [scanGo_wordNewline lang m body hb hw htr]
    simp [consPlain]

theorem scanGo_preFence : ∀ (pre : List Char) (n : Nat) (lang body : List Char),
    (pre ++ btick :: btick :: btick :: (lang ++ '\n' :: body)).length ≤ n →
    (∀ c ∈ pre, ¬ c = btick) →
    (∀ c ∈ lang, isWordChar c = true) →
    hasTriple body = false →
    scanGo n (pre ++ btick :: btick :: btick :: (lang ++ '\n' :: body)) =
      [Segment.plain (pre ++ btick :: btick :: btick :: (lang ++ '\n' :: body))] := by
  intro pre
  induction pre with
  | nil => intro n lang body hlen _ hw htr; exact scanGo_openFence n lang body hlen hw htr
  | cons c p ih =>
    intro n lang body hlen hpre hw htr
    match n with
    | 0 => simp at hlen
    | m + 1 =>
      show scanGo (m + 1) (c :: (p ++ btick :: btick :: btick :: (lang ++ '\n' :: body))) = _
      rw [scanGo_step,
        matchFence_none_of_tripleHead (tripleHead_none_head (hpre c (by simp)))]
      have hb : (p ++ btick :: btick :: btick :: (lang ++ '\n' :: body)).length ≤ m := by
        simp [List.length_cons, List.length_append] at hlen ⊢; omega
      rw [ih m lang body hb (fun x hx => hpre x (by simp [hx])) hw htr]
      simp [consPlain]

/-- C2: an input whose final fence is unterminated — arbitrary backtick-free
text, then an opening delimiter, an optional language token and a newline,
then a body containing no closing delimiter before end of input — yields
zero CodeBlocks for that region and the whole text is one plain segment.
In particular an input consisting only of an unterminated fence (empty
`pre`) yields zero CodeBlocks and one plain-text segment holding the
entire input. -/
theorem claimC2_unterminated_fence (pre lang body : List Char)
    (hpre : ∀ c ∈ pre, ¬ c = btick)
    (hlang : ∀ c ∈ lang, isWordChar c = true)
    (hbody : hasTriple body = false) :
    extractCodeBlocks (pre ++ btick :: btick :: btick :: (lang ++ '\n' :: body)) = [] ∧
    scanSegments (pre ++ btick :: btick :: btick :: (lang ++ '\n' :: body)) =
      [Segment.plain (pre ++ btick :: btick :: btick :: (lang ++ '\n' :: body))] := by
  have hscan := scanGo_preFence pre _ lang body (Nat.le_refl _) hpre hlang hbody
  refine ⟨?_, hscan⟩
  show extractGo _ _ = []
  rw [extractGo_eq_filterMap, hscan]
  rfl

/-- Witness for C2 at the spec's own example input. -/
theorem claimC2_witness :
    extractCodeBlocks ([] ++ btick :: btick :: btick ::
      (['j', 's'] ++ '\n' :: "console.log(1)".toList)) = [] ∧
    scanSegments ([] ++ btick :: btick :: btick ::
      (['j', 's'] ++ '\n' :: "console.log(1)".toList)) =
      [Segment.plain ([] ++ btick :: btick :: btick ::
        (['j', 's'] ++ '\n' :: "console.log(1)".toList))] :=
  claimC2_unterminated_fence [] ['j', 's'] ("console.log(1)".toList)
    (by decide) (by decide) (by decide)

/-- C3: sendMessage with an empty apiKey throws "API key not set" to its
caller before any provider dispatch or network call (the call list is
empty) and leaves the whole store state unchanged. -/
theorem claimC3_empty_key_throws_before_dispatch (env : Env) (content : String)
    (s : AIState) (h : s.llmConfig.apiKey = "") :
    sendMessage env content s =
      { state := s, thrown := some "API key not set", calls := [] } := by
  unfold sendMessage
  rw [if_pos h]

/-- Witness for C3 at a concrete state with an empty key. -/
theorem claimC3_witness :
    sendMessage envNet "hi" noKeyState =
      { state := noKeyState, thrown := some "API key not set", calls := [] } :=
  claimC3_empty_key_throws_before_dispatch envNet "hi" noKeyState rfl

/-- C4: in regular mode with an API key present, every execution of
sendMessage resolves without an uncaught exception, clears the typing flag
in its final step, and appends exactly the user message followed by one
assistant message — the provider text with its extracted code blocks on
success, or the user-visible string "Error: ..." when the provider dispatch
fails (missing client, network failure, or provider error). -/
theorem claimC4_failure_surfaced_typing_cleared (env : Env) (content : String)
    (s : AIState) (hk : ¬ s.llmConfig.apiKey = "")
    (hm : s.chatMode = ChatMode.regular) :
    (sendMessage env content s).thrown = none ∧
    (sendMessage env content s).state.isTyping = false ∧
    (sendMessage env content s).state.messages =
      s.messages ++ [userMsg content,
        match (chatDispatch env (s.messages ++ [userMsg content]) s.llmConfig
            s.openaiClient s.geminiClient).1 with
        | Except.ok t =>
          { content := t, role := Role.assistant,
            codeBlocks := some (extractCodeBlocksStr t) }
        | Except.error e =>
          { content := "Error: " ++ e, role := Role.assistant, codeBlocks := none }] := by
  have hmc : ¬ s.chatMode = ChatMode.cursor := by rw [hm]; decide
  unfold sendMessage
  rw [if_neg hk, if_neg hmc]
  dsimp only [setIsTyping, addMessage]
  cases hd : (chatDispatch env (s.messages ++ [userMsg content]) s.llmConfig
      s.openaiClient s.geminiClient).1 with
  | ok t => simp [hd]
  | error e => simp [hd]

/-- Witness for C4: concrete claude-provider state, failing network call. -/
theorem claimC4_witness :
    (sendMessage envNet "hi" baseState).thrown = none ∧
    (sendMessage envNet "hi" baseState).state.isTyping = false ∧
    (sendMessage envNet "hi" baseState).state.messages =
      baseState.messages ++ [userMsg "hi",
        { content := "Error: Network failure", role := Role.assistant,
          codeBlocks := none }] := by
  have h := claimC4_failure_surfaced_typing_cleared envNet "hi" baseState
    (by decide) rfl
  exact ⟨h.1, h.2.1, by rw [h.2.2]; rfl⟩

/-- C5 counterexample: at a concrete state with provider 'custom', a set
API key and no baseURL, a regular-mode send is not blocked entirely — the
store's message list does change (the user message and an assistant error
message are appended), contradicting "no message is appended to the
conversation store". -/
theorem claimC5_counterexample :
    ¬ (sendMessage envNet "hi" customNoURLState).state.messages
        = customNoURLState.messages := by decide

/-- C5 amended: with provider 'custom', no baseURL, a non-empty apiKey and
regular mode, no network dispatch occurs (the configuration error is
raised before the fetch), but the send is not blocked entirely: the user
message is appended and the failure is surfaced as an assistant message
"Error: Base URL required for custom API"; the typing flag ends cleared
and nothing is rethrown. -/
theorem claimC5_amended_no_dispatch_error_message (env : Env) (content : String)
    (s : AIState) (hp : s.llmConfig.provider = LLMProvider.custom)
    (hb : s.llmConfig.baseURL = none) (hk : ¬ s.llmConfig.apiKey = "")
    (hm : s.chatMode = ChatMode.regular) :
    (sendMessage env content s).calls = [] ∧
    (sendMessage env content s).thrown = none ∧
    (sendMessage env content s).state.isTyping = false ∧
    (sendMessage env content s).state.messages =
      s.messages ++ [userMsg content,
        { content := "Error: Base URL required for custom API",
          role := Role.assistant, codeBlocks := none }] := by
  have hmc : ¬ s.chatMode = ChatMode.cursor := by rw [hm]; decide
  have hset : baseURLSet s.llmConfig = false := by
    unfold baseURLSet
    rw [hb]
  unfold sendMessage
  rw [if_neg hk, if_neg hmc]
  dsimp only [setIsTyping, addMessage]
  unfold chatDispatch
  rw [hp]
  dsimp only [sendToCustomAPI]
  rw [hset]
  simp

/-- Witness for the amended C5 at the concrete custom-provider state. -/
theorem claimC5_amended_witness :
    (sendMessage envNet "hi" customNoURLState).calls = [] ∧
    (sendMessage envNet "hi" customNoURLState).thrown = none ∧
    (sendMessage envNet "hi" customNoURLState).state.isTyping = false ∧
    (sendMessage envNet "hi" customNoURLState).state.messages =
      customNoURLState.messages ++ [userMsg "hi",
        { content := "Error: Base URL required for custom API",
          role := Role.assistant, codeBlocks := none }] :=
  claimC5_amended_no_dispatch_error_message envNet "hi" customNoURLState
    rfl rfl (by decide) rfl

/-- C6: the conversation store's two operations satisfy the stated algebra:
clear followed by any finite sequence of appends leaves exactly the
appended messages in call order; clear twice equals clear once; and append
extends the list at the end, never mutating, deleting or reordering the
existing entries. -/
theorem claimC6_store_algebra : ∀ (s : AIState) (ms : List Message),
    (applyAppends ms (clearMessages s)).messages = ms ∧
    clearMessages (clearMessages s) = clearMessages s ∧
    ∀ m : Message, (addMessage m s).messages = s.messages ++ [m] := by
  have hgen : ∀ (ms : List Message) (s : AIState),
      (applyAppends ms s).messages = s.messages ++ ms := by
    intro ms
    induction ms with
    | nil => intro s; simp [applyAppends]
    | cons m rest ih =>
      intro s
      show (applyAppends rest (addMessage m s)).messages = s.messages ++ (m :: rest)
      rw [ih (addMessage m s)]
      simp [addMessage]
  intro s ms
  refine ⟨?_, rfl, fun m => rfl⟩
  rw [hgen ms (clearMessages s)]
  simp [clearMessages]

/-- C7: content already containing the standalone document marker
"<!DOCTYPE" is served to the preview surface byte-identical to the input
(the composer takes a single content string; no separate styling or
scripting input exists). -/
theorem claimC7_full_document_unchanged (content : List Char)
    (h : hasSubstr "<!DOCTYPE".toList content = true) :
    createBlobDoc content = content := by
  unfold createBlobDoc
  rw [h]
  simp

/-- Witness for C7 at a concrete full document. -/
theorem claimC7_witness :
    hasSubstr "<!DOCTYPE".toList docContent = true ∧
    createBlobDoc docContent = docContent :=
  ⟨by decide, claimC7_full_document_unchanged docContent (by decide)⟩

/-- C8 counterexample: the preview composer has no styling input — for the
spec's own example buckets (markup "<p>hi</p>", styling "p{color:red}"),
the document it produces from the markup does not contain the styling
content, so no embedded style region carries it as the claim states. -/
theorem claimC8_counterexample :
    ¬ hasSubstr stylingBucket (createBlobDoc markupBucket) = true := by decide

/-- C8 amended: the composer takes one content string, not buckets.  For
the markup "<p>hi</p>" it synthesizes the fixed boilerplate document whose
body contains the markup; the style region holds only the fixed default
preview styles (the styling bucket content appears nowhere), and no script
region — in particular no error listener — is emitted at all. -/
theorem claimC8_amended_fixed_wrapper :
    createBlobDoc markupBucket =
      previewHeader.toList ++ markupBucket ++ previewFooter.toList ∧
    hasSubstr markupBucket (createBlobDoc markupBucket) = true ∧
    hasSubstr stylingBucket (createBlobDoc markupBucket) = false ∧
    hasSubstr "<script".toList (createBlobDoc markupBucket) = false ∧
    hasSubstr "addEventListener".toList (createBlobDoc markupBucket) = false := by
  refine ⟨?_, by decide, by decide, by decide, by decide⟩
  unfold createBlobDoc
  rw [show (hasSubstr "<!DOCTYPE".toList markupBucket
      || hasSubstr "<html".toList markupBucket) = false from by decide]
  simp

/-- C9: after every setLLMConfig call at most one provider client is
instantiated — the resulting state never holds both clients, and a client
belonging to any provider other than the newly selected one is discarded
(left as none). -/
theorem claimC9_at_most_one_client : ∀ (p : ConfigPatch) (s : AIState),
    ((setLLMConfig p s).openaiClient = none ∨ (setLLMConfig p s).geminiClient = none) ∧
    ((setLLMConfig p s).llmConfig.provider = LLMProvider.openai ∨
      (setLLMConfig p s).openaiClient = none) ∧
    ((setLLMConfig p s).llmConfig.provider = LLMProvider.gemini ∨
      (setLLMConfig p s).geminiClient = none) := by
  intro p s
  unfold setLLMConfig
  dsimp only
  by_cases h1 : (mergeConfig s.llmConfig p).provider = LLMProvider.openai ∧
      ¬ (mergeConfig s.llmConfig p).apiKey = ""
  · rw [if_pos h1]
    have h2 : ¬ ((mergeConfig s.llmConfig p).provider = LLMProvider.gemini ∧
        ¬ (mergeConfig s.llmConfig p).apiKey = "") := by
      intro h2
      rw [h1.1] at h2
      cases h2.1
    rw [if_neg h2]
    exact ⟨Or.inr rfl, Or.inl h1.1, Or.inr rfl⟩
  · rw [if_neg h1]
    by_cases h2 : (mergeConfig s.llmConfig p).provider = LLMProvider.gemini ∧
        ¬ (mergeConfig s.llmConfig p).apiKey = ""
    · rw [if_pos h2]
      exact ⟨Or.inl rfl, Or.inr rfl, Or.inl h2.1⟩
    · rw [if_neg h2]
      exact ⟨Or.inl rfl, Or.inr rfl, Or.inr rfl⟩

/-- C10: in cursor mode with an API key present, sendMessage appends no
Message and never touches the typing flag — it creates one cursor session
and generates commands for it, leaving the message list and isTyping
exactly as they were. -/
theorem claimC10_cursor_mode_frame (env : Env) (content : String) (s : AIState)
    (hk : ¬ s.llmConfig.apiKey = "") (hm : s.chatMode = ChatMode.cursor) :
    (sendMessage env content s).state.messages = s.messages ∧
    (sendMessage env content s).state.isTyping = s.isTyping ∧
    (sendMessage env content s).state.cursorSessions.length
      = s.cursorSessions.length + 1 := by
  unfold sendMessage
  rw [if_neg hk, if_pos hm]
  unfold generateCommands createCursorSession
  dsimp only
  rw [if_neg (by
    intro hor
    rcases hor with hbad | hbad
    · exact hk hbad
    · cases hbad)]
  cases hd : (commandDispatch env content s.llmConfig s.openaiClient s.geminiClient).1 with
  | ok cmds => simp [hd]
  | error e => simp [hd]

/-- Witness for C10 at a concrete cursor-mode state. -/
theorem claimC10_witness :
    (sendMessage envNet "build a calculator" cursorState).state.messages
      = cursorState.messages ∧
    (sendMessage envNet "build a calculator" cursorState).state.isTyping
      = cursorState.isTyping ∧
    (sendMessage envNet "build a calculator" cursorState).state.cursorSessions.length
      = cursorState.cursorSessions.length + 1 :=
  claimC10_cursor_mode_frame envNet "build a calculator" cursorState (by decide) rfl
